import Mathlib

/-!
Shallow embedding of the booking/seat-reservation core of the carpooling
server (`server/storage.ts`, class `MongoStorage`, and `server/routes.ts`).

Entities are modelled as records over `Nat` identifiers and `Int` seat
counters; the Mongo collections become Lean lists; each HTTP/storage
operation becomes a pure function from state to (result, state).
-/

namespace Carpool

/-- Booking status enum from `bookingSchema` in `server/db.ts`:
`["pending", "accepted", "rejected", "cancelled"]`. -/
inductive BookingStatus where
  | pending
  | accepted
  | rejected
  | cancelled
deriving DecidableEq, Repr

/-- A ride document (`rideSchema` in `server/db.ts`), restricted to the
fields the booking core reads or writes. -/
structure Ride where
  id : Nat
  driverId : Nat
  seatsTotal : Int
  seatsAvailable : Int
  costPerSeat : Int
  isActive : Bool
deriving DecidableEq, Repr

/-- A booking document (`bookingSchema` in `server/db.ts`). -/
structure Booking where
  id : Nat
  rideId : Nat
  passengerId : Nat
  seatsBooked : Int
  status : BookingStatus
deriving DecidableEq, Repr

/-- The backing store: the Mongo collections the booking core touches.
Users and vehicles are carried as id lists only, to express frame
conditions; the booking operations never read or write them. -/
structure State where
  rides : List Ride
  bookings : List Booking
  users : List Nat
  vehicles : List Nat
deriving DecidableEq, Repr

/-- `RideModel.findById` / `MongoStorage.getRide`. -/
def getRide (s : State) (rid : Nat) : Option Ride :=
  s.rides.find? (fun r => r.id == rid)

/-- `BookingModel.findById` / `MongoStorage.getBooking`. -/
def getBooking (s : State) (bid : Nat) : Option Booking :=
  s.bookings.find? (fun b => b.id == bid)

/-- The per-document effect of `RideModel.findByIdAndUpdate(rid,
{seatsAvailable: v})`: documents whose `_id` matches get the new counter. -/
def updSeats (rid : Nat) (v : Int) (r : Ride) : Ride :=
  if r.id = rid then { r with seatsAvailable := v } else r

/-- `MongoStorage.updateRide(rid, {seatsAvailable: v})`. -/
def setRideSeats (s : State) (rid : Nat) (v : Int) : State :=
  { s with rides := s.rides.map (updSeats rid v) }

/-- The per-document effect of `BookingModel.findByIdAndUpdate(bid,
{status: st})`. -/
def updStatus (bid : Nat) (st : BookingStatus) (b : Booking) : Booking :=
  if b.id = bid then { b with status := st } else b

/-- `MongoStorage.updateBooking`'s underlying status write. -/
def setBookingStatus (s : State) (bid : Nat) (st : BookingStatus) : State :=
  { s with bookings := s.bookings.map (updStatus bid st) }

/-- Error outcomes of the `POST /api/bookings` handler in
`server/routes.ts`: zod validation failure (HTTP 400), "Ride not found"
(HTTP 404), "Only N seats available" (HTTP 400). -/
inductive BookingError where
  | validationFailed
  | notFound
  | insufficientSeats
deriving DecidableEq, Repr

/-- The `POST /api/bookings` handler (`server/routes.ts`, lines 217-250):
validates `seatsBooked ≥ 1` (zod `min(1)`), looks up the ride, rejects
when `ride.seatsAvailable < seatsBooked`, otherwise inserts a `pending`
booking (`createBooking`) and then writes
`seatsAvailable := ride.seatsAvailable - seatsBooked` (`updateRide`).
`newId` stands for the `randomUUID()` generated in `createBooking`.
Error paths return before any write, so they leave the state unchanged. -/
def requestBooking (s : State) (newId rid pid : Nat) (seats : Int) :
    Except BookingError Booking × State :=
  if seats < 1 then (.error .validationFailed, s)
  else
    match getRide s rid with
    | none => (.error .notFound, s)
    | some ride =>
      if ride.seatsAvailable < seats then (.error .insufficientSeats, s)
      else
        let b : Booking :=
          { id := newId, rideId := rid, passengerId := pid,
            seatsBooked := seats, status := .pending }
        let s1 : State := { s with bookings := s.bookings ++ [b] }
        (.ok b, setRideSeats s1 rid (ride.seatsAvailable - seats))

/-- `MongoStorage.updateBooking` (`server/storage.ts`, lines 310-342),
called with `data = {status: newStatus}` (the shape the booking routes
send): fetch the old booking, unconditionally write the new status, then
refund `seatsAvailable += seatsBooked` on the booking's ride exactly when
(new = rejected and old = pending) or
(new = cancelled and old ∈ {accepted, pending}).
Returns `none` when the booking id is absent. -/
def updateBooking (s : State) (bid : Nat) (newStatus : BookingStatus) :
    Option Booking × State :=
  match getBooking s bid with
  | none => (none, s)
  | some existing =>
    let b : Booking := { existing with status := newStatus }
    let s1 := setBookingStatus s bid newStatus
    match getRide s1 b.rideId with
    | none => (some b, s1)
    | some ride =>
      if newStatus = .rejected ∧ existing.status = .pending then
        (some b, setRideSeats s1 ride.id (ride.seatsAvailable + b.seatsBooked))
      else if newStatus = .cancelled ∧
          (existing.status = .accepted ∨ existing.status = .pending) then
        (some b, setRideSeats s1 ride.id (ride.seatsAvailable + b.seatsBooked))
      else
        (some b, s1)

/-- `MongoStorage.deleteRide` (`server/storage.ts`, lines 216-223): set
every pending booking of the ride to `rejected` via direct
`BookingModel.findByIdAndUpdate` calls (no seat refund), then
`RideModel.findByIdAndDelete` the ride; the boolean reports whether the
ride existed. -/
def deleteRide (s : State) (rid : Nat) : Bool × State :=
  let s1 : State :=
    { s with bookings := s.bookings.map (fun b =>
        if b.rideId = rid ∧ b.status = .pending then
          { b with status := BookingStatus.rejected }
        else b) }
  match getRide s1 rid with
  | none => (false, s1)
  | some _ => (true, { s1 with rides := s1.rides.filter (fun r => r.id != rid) })

/-- `MongoStorage.getBookingWithDetails`: requires the booking and its
ride to exist (returns the pair), mirroring the early `return undefined`
when the ride is missing; the passenger is defaulted when absent, so no
user lookup can fail. -/
def getBookingWithDetails (s : State) (bid : Nat) : Option (Booking × Ride) :=
  match getBooking s bid with
  | none => none
  | some b =>
    match getRide s b.rideId with
    | none => none
    | some r => some (b, r)

/-- `MongoStorage.getBookingsByRide` (`server/storage.ts`, lines
294-302): filter bookings by ride id, keep those whose details resolve.
Stated in operation form (result, state) to express the frame condition:
the source performs only `find` queries, so the state passes through. -/
def getBookingsByRide (s : State) (rid : Nat) : List (Booking × Ride) × State :=
  (((s.bookings.filter (fun b => b.rideId == rid)).filterMap
      (fun b => getBookingWithDetails s b.id)), s)

/-- `MongoStorage.getBookingsByPassenger` (`server/storage.ts`, lines
284-292). -/
def getBookingsByPassenger (s : State) (pid : Nat) : List (Booking × Ride) × State :=
  (((s.bookings.filter (fun b => b.passengerId == pid)).filterMap
      (fun b => getBookingWithDetails s b.id)), s)

/-! ## Operation sequences -/

/-- One call into the booking core, for stating properties of arbitrary
operation sequences. -/
inductive BookOp where
  | request (newId rid pid : Nat) (seats : Int)
  | setStat (bid : Nat) (st : BookingStatus)
  | delRide (rid : Nat)
deriving DecidableEq, Repr

/-- State effect of one operation (results discarded). -/
def applyOp (s : State) : BookOp → State
  | .request newId rid pid seats => (requestBooking s newId rid pid seats).2
  | .setStat bid st => (updateBooking s bid st).2
  | .delRide rid => (deleteRide s rid).2

/-- State after a sequence of operations. -/
def applyOps (s : State) : List BookOp → State
  | [] => s
  | op :: rest => applyOps (applyOp s op) rest

/-- The transition table of the spec (§4.2): the permitted status
changes. -/
def validTransition : BookingStatus → BookingStatus → Bool
  | .pending, .accepted => true
  | .pending, .rejected => true
  | .pending, .cancelled => true
  | .accepted, .cancelled => true
  | _, _ => false

/-- The booking id a `request` uses is fresh (what `randomUUID()`
guarantees). -/
def freshBookingId (s : State) (newId : Nat) : Bool :=
  s.bookings.all (fun b => b.id != newId)

/-- An operation is well-formed at a state: requests use fresh ids and
status updates perform transitions from the spec's table. -/
def okOp (s : State) : BookOp → Bool
  | .request newId _ _ _ => freshBookingId s newId
  | .setStat bid st =>
    match getBooking s bid with
    | none => true
    | some b => validTransition b.status st
  | .delRide _ => true

/-- Every operation of the sequence is well-formed at its point of
application. -/
def okSeq : State → List BookOp → Bool
  | _, [] => true
  | s, op :: rest => okOp s op && okSeq (applyOp s op) rest

/-! ## Invariant vocabulary -/

/-- How many seats a booking holds against ride `rid`: its `seatsBooked`
when it is a pending or accepted booking of that ride, else 0. -/
def seatContribution (rid : Nat) (b : Booking) : Int :=
  if b.rideId = rid ∧ (b.status = .pending ∨ b.status = .accepted) then
    b.seatsBooked
  else 0

/-- Total seats held against ride `rid` by a list of bookings. -/
def reservedList (rid : Nat) : List Booking → Int
  | [] => 0
  | b :: rest => seatContribution rid b + reservedList rid rest

/-- `Σ seatsBooked` over the state's bookings in {pending, accepted} for
ride `rid`. -/
def reservedSeats (s : State) (rid : Nat) : Int :=
  reservedList rid s.bookings

/-- The seat conservation law of the spec (§8): for every stored ride,
available seats plus seats held by live bookings equal total seats. -/
def conserved (s : State) : Prop :=
  ∀ r ∈ s.rides, r.seatsAvailable + reservedSeats s r.id = r.seatsTotal

/-- Mongo's `_id` uniqueness, carried over to the list model. -/
def wf (s : State) : Prop :=
  (s.rides.map (fun r => r.id)).Nodup ∧ (s.bookings.map (fun b => b.id)).Nodup

/-- Seat counters and booked-seat counts are non-negative. -/
def seatsNonneg (s : State) : Prop :=
  (∀ r ∈ s.rides, 0 ≤ r.seatsAvailable) ∧ (∀ b ∈ s.bookings, 0 ≤ b.seatsBooked)

/-- Whether an `Except` result is a success. -/
def isOkResult : Except BookingError Booking → Bool
  | .ok _ => true
  | .error _ => false

instance decidableEqExcept : DecidableEq (Except BookingError Booking)
  | .error e₁, .error e₂ =>
    if h : e₁ = e₂ then isTrue (by rw [h]) else isFalse (fun hc => h (by injection hc))
  | .error _, .ok _ => isFalse (fun hc => Except.noConfusion hc)
  | .ok _, .error _ => isFalse (fun hc => Except.noConfusion hc)
  | .ok b₁, .ok b₂ =>
    if h : b₁ = b₂ then isTrue (by rw [h]) else isFalse (fun hc => h (by injection hc))

instance decidableConserved (s : State) : Decidable (conserved s) :=
  inferInstanceAs
    (Decidable (∀ r ∈ s.rides, r.seatsAvailable + reservedSeats s r.id = r.seatsTotal))

instance decidableWf (s : State) : Decidable (wf s) :=
  inferInstanceAs
    (Decidable ((s.rides.map (fun r : Ride => r.id)).Nodup ∧
      (s.bookings.map (fun b : Booking => b.id)).Nodup))

instance decidableSeatsNonneg (s : State) : Decidable (seatsNonneg s) :=
  inferInstanceAs
    (Decidable ((∀ r ∈ s.rides, 0 ≤ r.seatsAvailable) ∧
      (∀ b ∈ s.bookings, 0 ≤ b.seatsBooked)))

/-! ## Concrete states for counterexamples and witnesses -/

/-- A ride with one total seat, one available (fresh ride). -/
def exRideOne : Ride :=
  { id := 1, driverId := 10, seatsTotal := 1, seatsAvailable := 1,
    costPerSeat := 5, isActive := true }

/-- Fresh state holding only `exRideOne`. -/
def exStateOne : State :=
  { rides := [exRideOne], bookings := [], users := [10, 20], vehicles := [] }

/-- Scenario A ride: three total seats, three available. -/
def exRideThree : Ride :=
  { id := 1, driverId := 10, seatsTotal := 3, seatsAvailable := 3,
    costPerSeat := 5, isActive := true }

/-- Fresh state holding only `exRideThree`. -/
def exStateThree : State :=
  { rides := [exRideThree], bookings := [], users := [10, 20], vehicles := [] }

/-- Scenario B state: one seat left on a three-seat ride. -/
def exStateScarce : State :=
  { rides := [{ id := 1, driverId := 10, seatsTotal := 3, seatsAvailable := 1,
                costPerSeat := 5, isActive := true }],
    bookings := [], users := [10, 20], vehicles := [] }

/-- An accepted two-seat booking on a ride with one seat left (the state
Scenario A reaches after acceptance, seen from the store). -/
def exStateAccepted : State :=
  { rides := [{ id := 1, driverId := 10, seatsTotal := 3, seatsAvailable := 1,
                costPerSeat := 5, isActive := true }],
    bookings := [{ id := 5, rideId := 1, passengerId := 20, seatsBooked := 2,
                   status := .accepted }],
    users := [10, 20], vehicles := [] }

/-- A cancelled booking (terminal) on the same ride shape. -/
def exStateCancelled : State :=
  { rides := [{ id := 1, driverId := 10, seatsTotal := 3, seatsAvailable := 3,
                costPerSeat := 5, isActive := true }],
    bookings := [{ id := 5, rideId := 1, passengerId := 20, seatsBooked := 2,
                   status := .cancelled }],
    users := [10, 20], vehicles := [] }

/-- A pending one-seat booking on `exRideThree` with two seats left. -/
def exStatePending : State :=
  { rides := [{ id := 1, driverId := 10, seatsTotal := 3, seatsAvailable := 2,
                costPerSeat := 5, isActive := true }],
    bookings := [{ id := 5, rideId := 1, passengerId := 20, seatsBooked := 1,
                   status := .pending }],
    users := [10, 20], vehicles := [] }

/-- Scenario D state: ride full (0 of 3 seats left) with two pending
bookings of 1 and 2 seats. -/
def exStateScenD : State :=
  { rides := [{ id := 1, driverId := 10, seatsTotal := 3, seatsAvailable := 0,
                costPerSeat := 5, isActive := true }],
    bookings := [{ id := 5, rideId := 1, passengerId := 20, seatsBooked := 1,
                   status := .pending },
                 { id := 6, rideId := 1, passengerId := 21, seatsBooked := 2,
                   status := .pending }],
    users := [10, 20, 21], vehicles := [] }

/-- Sequence refuting seat conservation: book the only seat, accept, then
set the accepted booking to rejected (the code allows it and skips the
refund). -/
def opsLoseSeat : List BookOp :=
  [.request 100 1 20 1, .setStat 100 .accepted, .setStat 100 .rejected]

/-- Sequence that pushes `seatsAvailable` above `seatsTotal`: book, cancel
(refund), set the cancelled booking back to pending (the code allows it,
no seat effect), cancel again (second refund). -/
def opsOverTotal : List BookOp :=
  [.request 100 1 20 1, .setStat 100 .cancelled, .setStat 100 .pending,
   .setStat 100 .cancelled]

/-- Scenario A as an operation sequence. -/
def opsScenA : List BookOp :=
  [.request 100 1 20 2, .setStat 100 .accepted, .setStat 100 .cancelled]

end Carpool

namespace Carpool

/-! ## Lookup lemmas -/

theorem updSeats_preserves_id (rid : Nat) (v : Int) (r : Ride) :
    (updSeats rid v r).id = r.id := by
  unfold updSeats; split <;> rfl

theorem updStatus_preserves_id (bid : Nat) (st : BookingStatus) (b : Booking) :
    (updStatus bid st b).id = b.id := by
  unfold updStatus; split <;> rfl

theorem updStatus_preserves_rideId (bid : Nat) (st : BookingStatus) (b : Booking) :
    (updStatus bid st b).rideId = b.rideId := by
  unfold updStatus; split <;> rfl

theorem find?_map_of_key_eq {α : Type} (f : α → α) (key : α → Nat)
    (hf : ∀ a, key (f a) = key a) (l : List α) (k : Nat) :
    (l.map f).find? (fun a => key a == k) = (l.find? (fun a => key a == k)).map f := by
  have hp : ((fun a => key a == k) ∘ f) = (fun a => key a == k) := by
    funext a
    simp [Function.comp, hf]
  rw [List.find?_map, hp]

theorem getRide_setRideSeats (s : State) (rid : Nat) (v : Int) (rid2 : Nat) :
    getRide (setRideSeats s rid v) rid2 = (getRide s rid2).map (updSeats rid v) :=
  find?_map_of_key_eq (updSeats rid v) (fun r => r.id)
    (updSeats_preserves_id rid v) s.rides rid2

theorem getBooking_setBookingStatus (s : State) (bid : Nat) (st : BookingStatus)
    (bid2 : Nat) :
    getBooking (setBookingStatus s bid st) bid2 =
      (getBooking s bid2).map (updStatus bid st) :=
  find?_map_of_key_eq (updStatus bid st) (fun b => b.id)
    (updStatus_preserves_id bid st) s.bookings bid2

theorem getRide_mem {s : State} {rid : Nat} {r : Ride}
    (h : getRide s rid = some r) : r ∈ s.rides ∧ r.id = rid := by
  refine ⟨List.mem_of_find?_eq_some h, ?_⟩
  have := List.find?_some h
  simpa using this

theorem getBooking_mem {s : State} {bid : Nat} {b : Booking}
    (h : getBooking s bid = some b) : b ∈ s.bookings ∧ b.id = bid := by
  refine ⟨List.mem_of_find?_eq_some h, ?_⟩
  have := List.find?_some h
  simpa using this

theorem getRide_eq_of_mem {s : State}
    (hnd : (s.rides.map (fun r : Ride => r.id)).Nodup)
    {r : Ride} (hr : r ∈ s.rides) {rid : Nat} (hid : r.id = rid) :
    getRide s rid = some r := by
  cases h : getRide s rid with
  | none =>
    exact absurd (by simpa using hid)
      (by simpa using List.find?_eq_none.mp h r hr)
  | some r0 =>
    obtain ⟨hr0, hid0⟩ := getRide_mem h
    have : r0 = r := List.inj_on_of_nodup_map hnd hr0 hr (by rw [hid0, hid])
    rw [this]

theorem getRide_none_ids {s : State} {rid : Nat}
    (h : getRide s rid = none) : ∀ r ∈ s.rides, r.id ≠ rid := by
  intro r hr
  have := List.find?_eq_none.mp h r hr
  simpa using this

end Carpool

namespace Carpool

/-! ## Reserved-seat accounting lemmas -/

theorem reservedList_append (rid : Nat) (l1 l2 : List Booking) :
    reservedList rid (l1 ++ l2) = reservedList rid l1 + reservedList rid l2 := by
  induction l1 with
  | nil => simp [reservedList]
  | cons b t ih => simp [reservedList, ih]; ring

theorem reservedList_singleton (rid : Nat) (b : Booking) :
    reservedList rid [b] = seatContribution rid b := by
  simp [reservedList]

theorem reservedList_map_congr (rid : Nat) (f : Booking → Booking)
    (l : List Booking)
    (h : ∀ b ∈ l, seatContribution rid (f b) = seatContribution rid b) :
    reservedList rid (l.map f) = reservedList rid l := by
  induction l with
  | nil => rfl
  | cons b t ih =>
    simp only [List.map_cons, reservedList]
    rw [h b (List.mem_cons_self b t), ih (fun b' hb' => h b' (List.mem_cons_of_mem b hb'))]

theorem map_updStatus_eq_self (bid : Nat) (st : BookingStatus) (l : List Booking)
    (h : ∀ b ∈ l, b.id ≠ bid) : l.map (updStatus bid st) = l := by
  induction l with
  | nil => rfl
  | cons b t ih =>
    simp only [List.map_cons]
    rw [ih (fun b' hb' => h b' (List.mem_cons_of_mem b hb'))]
    have : updStatus bid st b = b := by
      unfold updStatus
      rw [if_neg (h b (List.mem_cons_self b t))]
    rw [this]

theorem reservedList_map_updStatus (rid bid : Nat) (st : BookingStatus)
    (l : List Booking) (hnd : (l.map (fun b : Booking => b.id)).Nodup)
    (b : Booking) (hb : b ∈ l) (hid : b.id = bid) :
    reservedList rid (l.map (updStatus bid st)) =
      reservedList rid l - seatContribution rid b +
        seatContribution rid { b with status := st } := by
  induction l with
  | nil => cases hb
  | cons h t ih =>
    simp only [List.map_cons, List.nodup_cons] at hnd
    obtain ⟨hnotmem, hndt⟩ := hnd
    rcases List.mem_cons.mp hb with hbh | hbt
    · subst hbh
      have hupd : updStatus bid st b = { b with status := st } := by
        unfold updStatus
        rw [if_pos hid]
      have htail : t.map (updStatus bid st) = t := by
        apply map_updStatus_eq_self
        intro b' hb' hbid'
        exact hnotmem (by
          rw [hid, ← hbid']
          exact List.mem_map_of_mem (fun x : Booking => x.id) hb')
      simp only [List.map_cons, hupd, htail, reservedList]
      ring
    · have hhid : h.id ≠ bid := by
        intro hh
        exact hnotmem (by
          rw [hh, ← hid]
          exact List.mem_map_of_mem (fun x : Booking => x.id) hbt)
      have hupd : updStatus bid st h = h := by
        unfold updStatus
        rw [if_neg hhid]
      simp only [List.map_cons, hupd, reservedList]
      rw [ih hndt hbt]
      ring

end Carpool

namespace Carpool

/-! ## State-shape lemmas -/

theorem rides_setBookingStatus (s : State) (bid : Nat) (st : BookingStatus) :
    (setBookingStatus s bid st).rides = s.rides := rfl

theorem reservedSeats_setRideSeats (s : State) (rid : Nat) (v : Int) (x : Nat) :
    reservedSeats (setRideSeats s rid v) x = reservedSeats s x := rfl

theorem mem_setRideSeats_rides {s : State} {rid : Nat} {v : Int} {r'' : Ride} :
    r'' ∈ (setRideSeats s rid v).rides ↔ ∃ r0 ∈ s.rides, updSeats rid v r0 = r'' := by
  simp [setRideSeats, List.mem_map]

theorem reservedSeats_append_one (s : State) (b : Booking) (x : Nat) :
    reservedSeats { s with bookings := s.bookings ++ [b] } x =
      reservedSeats s x + seatContribution x b := by
  show reservedList x (s.bookings ++ [b]) = reservedList x s.bookings + seatContribution x b
  rw [reservedList_append, reservedList_singleton]

theorem seatContribution_of_rideId_ne {x : Nat} {b : Booking} (h : b.rideId ≠ x) :
    seatContribution x b = 0 := by
  unfold seatContribution
  rw [if_neg]
  intro hcon
  exact h hcon.1

/-! ## Conservation is preserved by each well-formed operation -/

theorem conserved_requestBooking (s : State) (newId rid pid : Nat) (seats : Int)
    (hnd : (s.rides.map (fun r : Ride => r.id)).Nodup)
    (hc : conserved s) :
    conserved (requestBooking s newId rid pid seats).2 := by
  by_cases h1 : seats < 1
  · simp only [requestBooking, if_pos h1]
    exact hc
  · cases hr : getRide s rid with
    | none =>
      simp only [requestBooking, if_neg h1, hr]
      exact hc
    | some ride =>
      by_cases h2 : ride.seatsAvailable < seats
      · simp only [requestBooking, if_neg h1, hr, if_pos h2]
        exact hc
      · simp only [requestBooking, if_neg h1, hr, if_neg h2]
        intro r'' hr''
        obtain ⟨hmem, hrid⟩ := getRide_mem hr
        obtain ⟨r0, hr0, hrec⟩ := mem_setRideSeats_rides.mp hr''
        rw [reservedSeats_setRideSeats, reservedSeats_append_one]
        by_cases hid : r0.id = rid
        · have hr0ride : r0 = ride :=
            List.inj_on_of_nodup_map hnd hr0 hmem (by rw [hid, hrid])
          have hrec' : r'' = { r0 with seatsAvailable := ride.seatsAvailable - seats } := by
            rw [← hrec]
            unfold updSeats
            rw [if_pos hid]
          have hcontrib :
              seatContribution r''.id
                { id := newId, rideId := rid, passengerId := pid,
                  seatsBooked := seats, status := .pending } = seats := by
            rw [hrec']
            show seatContribution r0.id _ = seats
            unfold seatContribution
            rw [if_pos ⟨hid.symm, Or.inl rfl⟩]
          rw [hcontrib]
          have hlaw := hc r0 hr0
          rw [hrec']
          show ride.seatsAvailable - seats + (reservedSeats s r0.id + seats) = r0.seatsTotal
          rw [hr0ride] at hlaw ⊢
          linarith
        · have hrec' : r'' = r0 := by
            rw [← hrec]
            unfold updSeats
            rw [if_neg hid]
          subst hrec'
          have hcontrib :
              seatContribution r''.id
                { id := newId, rideId := rid, passengerId := pid,
                  seatsBooked := seats, status := .pending } = 0 := by
            apply seatContribution_of_rideId_ne
            show rid ≠ r''.id
            exact fun hcon => hid hcon.symm
          rw [hcontrib]
          have := hc r'' hr0
          linarith

end Carpool

namespace Carpool

theorem getRide_setBookingStatus (s : State) (bid : Nat) (st : BookingStatus)
    (y : Nat) : getRide (setBookingStatus s bid st) y = getRide s y := rfl

theorem conserved_setBookingStatus_congr (s : State) (bid : Nat)
    (st : BookingStatus) (existing : Booking)
    (hnd : (s.bookings.map (fun b : Booking => b.id)).Nodup)
    (hb : getBooking s bid = some existing)
    (hc : conserved s)
    (hcontrib : ∀ x, seatContribution x { existing with status := st } =
      seatContribution x existing) :
    conserved (setBookingStatus s bid st) := by
  intro r hr
  rw [rides_setBookingStatus] at hr
  obtain ⟨hmem, hid⟩ := getBooking_mem hb
  have hres : reservedSeats (setBookingStatus s bid st) r.id = reservedSeats s r.id := by
    show reservedList r.id (s.bookings.map (updStatus bid st)) = reservedList r.id s.bookings
    rw [reservedList_map_updStatus r.id bid st s.bookings hnd existing hmem hid, hcontrib]
    ring
  rw [hres]
  exact hc r hr

theorem conserved_rideMissing (s : State) (bid : Nat) (st : BookingStatus)
    (existing : Booking)
    (hnd : (s.bookings.map (fun b : Booking => b.id)).Nodup)
    (hb : getBooking s bid = some existing)
    (hride : getRide s existing.rideId = none)
    (hc : conserved s) :
    conserved (setBookingStatus s bid st) := by
  intro r hr
  rw [rides_setBookingStatus] at hr
  obtain ⟨hmem, hid⟩ := getBooking_mem hb
  have hne : existing.rideId ≠ r.id := fun h => getRide_none_ids hride r hr h.symm
  have hres : reservedSeats (setBookingStatus s bid st) r.id = reservedSeats s r.id := by
    show reservedList r.id (s.bookings.map (updStatus bid st)) = reservedList r.id s.bookings
    rw [reservedList_map_updStatus r.id bid st s.bookings hnd existing hmem hid]
    rw [seatContribution_of_rideId_ne hne, seatContribution_of_rideId_ne]
    · ring
    · exact hne
  rw [hres]
  exact hc r hr

theorem conserved_refund (s : State) (bid : Nat) (st : BookingStatus)
    (existing : Booking) (ride : Ride)
    (hwfr : (s.rides.map (fun r : Ride => r.id)).Nodup)
    (hwfb : (s.bookings.map (fun b : Booking => b.id)).Nodup)
    (hb : getBooking s bid = some existing)
    (hride : getRide s existing.rideId = some ride)
    (hc : conserved s)
    (hlive : existing.status = .pending ∨ existing.status = .accepted)
    (hdead : st = .rejected ∨ st = .cancelled) :
    conserved (setRideSeats (setBookingStatus s bid st) ride.id
      (ride.seatsAvailable + existing.seatsBooked)) := by
  obtain ⟨hbmem, hbid⟩ := getBooking_mem hb
  obtain ⟨hrmem, hrid⟩ := getRide_mem hride
  intro r'' hr''
  obtain ⟨r0, hr0, hrec⟩ := mem_setRideSeats_rides.mp hr''
  rw [rides_setBookingStatus] at hr0
  rw [reservedSeats_setRideSeats]
  have hres : ∀ x, reservedSeats (setBookingStatus s bid st) x =
      reservedSeats s x - seatContribution x existing +
        seatContribution x { existing with status := st } := by
    intro x
    exact reservedList_map_updStatus x bid st s.bookings hwfb existing hbmem hbid
  have hdeadContrib : ∀ x, seatContribution x { existing with status := st } = 0 := by
    intro x
    unfold seatContribution
    rw [if_neg]
    intro hcon
    rcases hdead with h | h <;> rw [h] at hcon <;>
      rcases hcon.2 with h2 | h2 <;> cases h2
  by_cases hid : r0.id = ride.id
  · have hr0ride : r0 = ride := List.inj_on_of_nodup_map hwfr hr0 hrmem hid
    subst hr0ride
    have hrec' : r'' = { r0 with
        seatsAvailable := r0.seatsAvailable + existing.seatsBooked } := by
      rw [← hrec]
      unfold updSeats
      rw [if_pos rfl]
    subst hrec'
    have hliveContrib : seatContribution existing.rideId existing =
        existing.seatsBooked := by
      unfold seatContribution
      rw [if_pos ⟨rfl, hlive⟩]
    show r0.seatsAvailable + existing.seatsBooked +
      reservedSeats (setBookingStatus s bid st) r0.id = r0.seatsTotal
    rw [hres, hrid, hliveContrib, hdeadContrib]
    have hlaw := hc r0 hr0
    rw [hrid] at hlaw
    linarith
  · have hrec' : r'' = r0 := by
      rw [← hrec]
      unfold updSeats
      rw [if_neg hid]
    subst hrec'
    have hne : existing.rideId ≠ r''.id := by
      rw [← hrid]
      exact fun h => hid h.symm
    rw [hres, seatContribution_of_rideId_ne hne, hdeadContrib]
    have := hc r'' hr0
    linarith

theorem conserved_updateBooking (s : State) (bid : Nat) (st : BookingStatus)
    (hwf : wf s) (hc : conserved s)
    (hok : okOp s (.setStat bid st) = true) :
    conserved (updateBooking s bid st).2 := by
  obtain ⟨hwfr, hwfb⟩ := hwf
  simp only [updateBooking]
  split
  · exact hc
  · next existing hb =>
    have hvt : validTransition existing.status st = true := by
      simp only [okOp, hb] at hok
      exact hok
    split
    · next hr =>
      exact conserved_rideMissing s bid st existing hwfb hb hr hc
    · next ride hr =>
      by_cases h1 : st = .rejected ∧ existing.status = .pending
      · rw [if_pos h1]
        exact conserved_refund s bid st existing ride hwfr hwfb hb hr hc
          (Or.inl h1.2) (Or.inl h1.1)
      · rw [if_neg h1]
        by_cases h2 : st = .cancelled ∧
            (existing.status = .accepted ∨ existing.status = .pending)
        · rw [if_pos h2]
          exact conserved_refund s bid st existing ride hwfr hwfb hb hr hc
            h2.2.symm (Or.inr h2.1)
        · rw [if_neg h2]
          -- the only valid transition reaching here is pending → accepted
          cases hex : existing.status <;> cases hst : st <;>
            rw [hex, hst] at hvt <;>
            simp only [validTransition] at hvt <;>
            first
              | exact absurd hvt Bool.false_ne_true
              | skip
          all_goals subst hst
          · -- pending → accepted: both statuses count as live seats
            apply conserved_setBookingStatus_congr s bid .accepted existing hwfb hb hc
            intro x
            unfold seatContribution
            by_cases hx : existing.rideId = x
            · rw [if_pos ⟨hx, Or.inr rfl⟩, if_pos ⟨hx, Or.inl hex⟩]
            · rw [if_neg (fun hcon => hx hcon.1), if_neg (fun hcon => hx hcon.1)]
          · -- pending → rejected: contradicts h1
            exact absurd ⟨rfl, hex⟩ h1
          · -- pending → cancelled: contradicts h2
            exact absurd ⟨rfl, Or.inr hex⟩ h2
          · -- accepted → cancelled: contradicts h2
            exact absurd ⟨rfl, Or.inl hex⟩ h2

end Carpool

namespace Carpool

theorem reservedList_reject_map (s : State) (rid : Nat) (x : Nat) (hne : x ≠ rid) :
    reservedList x (s.bookings.map (fun b : Booking =>
      if b.rideId = rid ∧ b.status = .pending then
        { b with status := BookingStatus.rejected }
      else b)) = reservedList x s.bookings := by
  apply reservedList_map_congr
  intro b hb
  by_cases h : b.rideId = rid ∧ b.status = .pending
  · rw [if_pos h]
    rw [seatContribution_of_rideId_ne, seatContribution_of_rideId_ne]
    · show b.rideId ≠ x
      rw [h.1]
      exact fun hcon => hne hcon.symm
    · show b.rideId ≠ x
      rw [h.1]
      exact fun hcon => hne hcon.symm
  · rw [if_neg h]

theorem conserved_deleteRide (s : State) (rid : Nat) (hc : conserved s) :
    conserved (deleteRide s rid).2 := by
  simp only [deleteRide]
  split
  · next hr =>
    intro r hrm
    have hne : r.id ≠ rid := getRide_none_ids hr r hrm
    have hlaw := hc r hrm
    show r.seatsAvailable + reservedList r.id (s.bookings.map (fun b : Booking =>
      if b.rideId = rid ∧ b.status = .pending then
        { b with status := BookingStatus.rejected }
      else b)) = r.seatsTotal
    rw [reservedList_reject_map s rid r.id hne]
    exact hlaw
  · next ride hr =>
    intro r hrm
    obtain ⟨hrm', hp⟩ := List.mem_filter.mp hrm
    have hne : r.id ≠ rid := by
      simpa using hp
    have hlaw := hc r hrm'
    show r.seatsAvailable + reservedList r.id (s.bookings.map (fun b : Booking =>
      if b.rideId = rid ∧ b.status = .pending then
        { b with status := BookingStatus.rejected }
      else b)) = r.seatsTotal
    rw [reservedList_reject_map s rid r.id hne]
    exact hlaw

/-! ## Uniqueness of ids is preserved -/

theorem map_ids_of_key_preserved {α : Type} (f : α → α) (key : α → Nat)
    (hf : ∀ a, key (f a) = key a) (l : List α) :
    (l.map f).map key = l.map key := by
  induction l with
  | nil => rfl
  | cons a t ih => simp [ih, hf]

theorem wf_setRideSeats (s : State) (rid : Nat) (v : Int) (hwf : wf s) :
    wf (setRideSeats s rid v) := by
  obtain ⟨hr, hb⟩ := hwf
  refine ⟨?_, hb⟩
  show ((s.rides.map (updSeats rid v)).map (fun r : Ride => r.id)).Nodup
  rw [map_ids_of_key_preserved (updSeats rid v) (fun r : Ride => r.id)
    (updSeats_preserves_id rid v)]
  exact hr

theorem wf_setBookingStatus (s : State) (bid : Nat) (st : BookingStatus)
    (hwf : wf s) : wf (setBookingStatus s bid st) := by
  obtain ⟨hr, hb⟩ := hwf
  refine ⟨hr, ?_⟩
  show ((s.bookings.map (updStatus bid st)).map (fun b : Booking => b.id)).Nodup
  rw [map_ids_of_key_preserved (updStatus bid st) (fun b : Booking => b.id)
    (updStatus_preserves_id bid st)]
  exact hb

theorem wf_requestBooking (s : State) (newId rid pid : Nat) (seats : Int)
    (hwf : wf s) (hfresh : freshBookingId s newId = true) :
    wf (requestBooking s newId rid pid seats).2 := by
  obtain ⟨hwfr, hwfb⟩ := hwf
  by_cases h1 : seats < 1
  · simp only [requestBooking, if_pos h1]
    exact ⟨hwfr, hwfb⟩
  · cases hr : getRide s rid with
    | none =>
      simp only [requestBooking, if_neg h1, hr]
      exact ⟨hwfr, hwfb⟩
    | some ride =>
      by_cases h2 : ride.seatsAvailable < seats
      · simp only [requestBooking, if_neg h1, hr, if_pos h2]
        exact ⟨hwfr, hwfb⟩
      · simp only [requestBooking, if_neg h1, hr, if_neg h2]
        constructor
        · show ((s.rides.map (updSeats rid (ride.seatsAvailable - seats))).map
            (fun r : Ride => r.id)).Nodup
          rw [map_ids_of_key_preserved (updSeats rid (ride.seatsAvailable - seats))
            (fun r : Ride => r.id) (updSeats_preserves_id rid (ride.seatsAvailable - seats))]
          exact hwfr
        · show ((s.bookings ++
            [({ id := newId, rideId := rid, passengerId := pid,
                seatsBooked := seats, status := .pending } : Booking)]).map
              (fun b : Booking => b.id)).Nodup
          rw [List.map_append, List.nodup_append_comm]
          show ((newId :: s.bookings.map (fun b : Booking => b.id))).Nodup
          rw [List.nodup_cons]
          refine ⟨?_, hwfb⟩
          intro hmem
          obtain ⟨b0, hb0, hb0id⟩ := List.mem_map.mp hmem
          have hall := List.all_eq_true.mp hfresh b0 hb0
          simp only [bne_iff_ne, ne_eq] at hall
          exact hall hb0id

end Carpool

namespace Carpool

theorem rejectPending_preserves_id (rid : Nat) (b : Booking) :
    (if b.rideId = rid ∧ b.status = .pending then
      { b with status := BookingStatus.rejected }
    else b).id = b.id := by
  split <;> rfl

theorem wf_updateBooking (s : State) (bid : Nat) (st : BookingStatus)
    (hwf : wf s) : wf (updateBooking s bid st).2 := by
  simp only [updateBooking]
  split
  · exact hwf
  · next existing hb =>
    split
    · next hr => exact wf_setBookingStatus s bid st hwf
    · next ride hr =>
      by_cases h1 : st = .rejected ∧ existing.status = .pending
      · rw [if_pos h1]
        exact wf_setRideSeats _ ride.id _ (wf_setBookingStatus s bid st hwf)
      · rw [if_neg h1]
        by_cases h2 : st = .cancelled ∧
            (existing.status = .accepted ∨ existing.status = .pending)
        · rw [if_pos h2]
          exact wf_setRideSeats _ ride.id _ (wf_setBookingStatus s bid st hwf)
        · rw [if_neg h2]
          exact wf_setBookingStatus s bid st hwf

theorem wf_deleteRide (s : State) (rid : Nat) (hwf : wf s) :
    wf (deleteRide s rid).2 := by
  obtain ⟨hwfr, hwfb⟩ := hwf
  have hbook : ((s.bookings.map (fun b : Booking =>
      if b.rideId = rid ∧ b.status = .pending then
        { b with status := BookingStatus.rejected }
      else b)).map (fun b : Booking => b.id)).Nodup := by
    rw [map_ids_of_key_preserved _ (fun b : Booking => b.id)
      (rejectPending_preserves_id rid)]
    exact hwfb
  simp only [deleteRide]
  split
  · exact ⟨hwfr, hbook⟩
  · refine ⟨?_, hbook⟩
    show ((s.rides.filter (fun r : Ride => r.id != rid)).map
      (fun r : Ride => r.id)).Nodup
    exact List.Nodup.sublist
      (List.Sublist.map (fun r : Ride => r.id) (List.filter_sublist s.rides)) hwfr

theorem wf_applyOp (s : State) (op : BookOp) (hwf : wf s)
    (hok : okOp s op = true) : wf (applyOp s op) := by
  cases op with
  | request newId rid pid seats =>
    exact wf_requestBooking s newId rid pid seats hwf hok
  | setStat bid st => exact wf_updateBooking s bid st hwf
  | delRide rid => exact wf_deleteRide s rid hwf

theorem conserved_applyOp (s : State) (op : BookOp) (hwf : wf s)
    (hc : conserved s) (hok : okOp s op = true) : conserved (applyOp s op) := by
  cases op with
  | request newId rid pid seats =>
    exact conserved_requestBooking s newId rid pid seats hwf.1 hc
  | setStat bid st => exact conserved_updateBooking s bid st hwf hc hok
  | delRide rid => exact conserved_deleteRide s rid hc

theorem conserved_applyOps (s : State) (ops : List BookOp) (hwf : wf s)
    (hc : conserved s) (hok : okSeq s ops = true) :
    conserved (applyOps s ops) := by
  induction ops generalizing s with
  | nil => exact hc
  | cons op rest ih =>
    simp only [okSeq, Bool.and_eq_true] at hok
    exact ih (applyOp s op) (wf_applyOp s op hwf hok.1)
      (conserved_applyOp s op hwf hc hok.1) hok.2

end Carpool

namespace Carpool

/-! ## Non-negativity of seat counters is preserved -/

theorem seatsBooked_updStatus (bid : Nat) (st : BookingStatus) (b : Booking) :
    (updStatus bid st b).seatsBooked = b.seatsBooked := by
  unfold updStatus; split <;> rfl

theorem seatsNonneg_setBookingStatus (s : State) (bid : Nat) (st : BookingStatus)
    (h : seatsNonneg s) : seatsNonneg (setBookingStatus s bid st) := by
  obtain ⟨hr, hb⟩ := h
  refine ⟨hr, ?_⟩
  intro b0 hb0
  obtain ⟨b1, hb1, hrec⟩ := List.mem_map.mp hb0
  rw [← hrec, seatsBooked_updStatus]
  exact hb b1 hb1

theorem seatsNonneg_setRideSeats (s : State) (rid : Nat) (v : Int) (hv : 0 ≤ v)
    (h : seatsNonneg s) : seatsNonneg (setRideSeats s rid v) := by
  obtain ⟨hr, hb⟩ := h
  refine ⟨?_, hb⟩
  intro r'' hr''
  obtain ⟨r0, hr0, hrec⟩ := List.mem_map.mp hr''
  rw [← hrec]
  unfold updSeats
  split
  · exact hv
  · exact hr r0 hr0

theorem seatsNonneg_requestBooking (s : State) (newId rid pid : Nat) (seats : Int)
    (h : seatsNonneg s) : seatsNonneg (requestBooking s newId rid pid seats).2 := by
  obtain ⟨hr, hb⟩ := h
  by_cases h1 : seats < 1
  · simp only [requestBooking, if_pos h1]
    exact ⟨hr, hb⟩
  · cases hride : getRide s rid with
    | none =>
      simp only [requestBooking, if_neg h1, hride]
      exact ⟨hr, hb⟩
    | some ride =>
      by_cases h2 : ride.seatsAvailable < seats
      · simp only [requestBooking, if_neg h1, hride, if_pos h2]
        exact ⟨hr, hb⟩
      · simp only [requestBooking, if_neg h1, hride, if_neg h2]
        constructor
        · intro r'' hr''
          obtain ⟨r0, hr0, hrec⟩ := List.mem_map.mp hr''
          rw [← hrec]
          unfold updSeats
          split
          · show (0:Int) ≤ ride.seatsAvailable - seats
            have := not_lt.mp h2
            linarith
          · exact hr r0 hr0
        · intro b0 hb0
          rcases List.mem_append.mp hb0 with hmem | hmem
          · exact hb b0 hmem
          · have hb0eq := List.mem_singleton.mp hmem
            rw [hb0eq]
            show (0:Int) ≤ seats
            have := not_lt.mp h1
            linarith

theorem seatsNonneg_updateBooking (s : State) (bid : Nat) (st : BookingStatus)
    (h : seatsNonneg s) : seatsNonneg (updateBooking s bid st).2 := by
  simp only [updateBooking]
  split
  · exact h
  · next existing hb =>
    obtain ⟨hbmem, hbid⟩ := getBooking_mem hb
    split
    · next hr => exact seatsNonneg_setBookingStatus s bid st h
    · next ride hr =>
      have hridemem : ride ∈ s.rides := (getRide_mem (hr : getRide s existing.rideId = some ride)).1
      have hv : (0:Int) ≤ ride.seatsAvailable + existing.seatsBooked := by
        have h1 := h.1 ride hridemem
        have h2 := h.2 existing hbmem
        linarith
      by_cases h1 : st = .rejected ∧ existing.status = .pending
      · rw [if_pos h1]
        exact seatsNonneg_setRideSeats _ ride.id _ hv
          (seatsNonneg_setBookingStatus s bid st h)
      · rw [if_neg h1]
        by_cases h2 : st = .cancelled ∧
            (existing.status = .accepted ∨ existing.status = .pending)
        · rw [if_pos h2]
          exact seatsNonneg_setRideSeats _ ride.id _ hv
            (seatsNonneg_setBookingStatus s bid st h)
        · rw [if_neg h2]
          exact seatsNonneg_setBookingStatus s bid st h

theorem seatsNonneg_deleteRide (s : State) (rid : Nat) (h : seatsNonneg s) :
    seatsNonneg (deleteRide s rid).2 := by
  obtain ⟨hr, hb⟩ := h
  have hbook : ∀ b0 ∈ s.bookings.map (fun b : Booking =>
      if b.rideId = rid ∧ b.status = .pending then
        { b with status := BookingStatus.rejected }
      else b), 0 ≤ b0.seatsBooked := by
    intro b0 hb0
    obtain ⟨b1, hb1, hrec⟩ := List.mem_map.mp hb0
    rw [← hrec]
    split
    · exact hb b1 hb1
    · exact hb b1 hb1
  simp only [deleteRide]
  split
  · exact ⟨hr, hbook⟩
  · refine ⟨?_, hbook⟩
    intro r hrm
    exact hr r (List.mem_filter.mp hrm).1

theorem seatsNonneg_applyOps (s : State) (ops : List BookOp)
    (h : seatsNonneg s) : seatsNonneg (applyOps s ops) := by
  induction ops generalizing s with
  | nil => exact h
  | cons op rest ih =>
    refine ih (applyOp s op) ?_
    cases op with
    | request newId rid pid seats => exact seatsNonneg_requestBooking s newId rid pid seats h
    | setStat bid st => exact seatsNonneg_updateBooking s bid st h
    | delRide rid => exact seatsNonneg_deleteRide s rid h

end Carpool

namespace Carpool

/-! ## Claim theorems -/

/-- C1 (counterexample): the unconditional seat conservation claim fails
on the code. Starting from a conserved one-seat ride, booking the seat,
accepting the booking, and then updating the accepted booking to
`rejected` — a transition outside the spec's table which the code
nevertheless executes without a refund — leaves a state where available
plus reserved seats no longer equal total seats. -/
theorem claim1_seat_conservation_counterexample :
    conserved exStateOne ∧ wf exStateOne ∧
      ¬ conserved (applyOps exStateOne opsLoseSeat) := by
  decide

/-- C1 (amended): seat conservation is preserved by every sequence of
booking operations in which each `updateBooking` call performs a status
transition from the spec's table and each `requestBooking` uses a fresh
booking id, starting from any well-formed conserved state. -/
theorem claim1_seat_conservation_for_valid_transitions
    (s : State) (ops : List BookOp) (hwf : wf s) (hc : conserved s)
    (hok : okSeq s ops = true) : conserved (applyOps s ops) :=
  conserved_applyOps s ops hwf hc hok

/-- Witness: the amended C1 theorem applied to Scenario A's concrete
data (book 2 of 3 seats, accept, cancel). -/
theorem claim1_seat_conservation_for_valid_transitions_witness :
    wf exStateThree ∧ conserved exStateThree ∧
      okSeq exStateThree opsScenA = true ∧
      conserved (applyOps exStateThree opsScenA) :=
  ⟨by decide, by decide, by decide,
    claim1_seat_conservation_for_valid_transitions exStateThree opsScenA
      (by decide) (by decide) (by decide)⟩

/-- C2: `requestBooking` fails with `notFound` when the ride id is
absent and with `insufficientSeats` when the requested seats exceed
`seatsAvailable`; in both cases the returned state is the input state
(no booking created, no counter changed), and the operation never
returns a success when the seats exceed availability. -/
theorem claim2_requestBooking_failure_modes (s : State) (newId rid pid : Nat)
    (seats : Int) (r : Ride) (hseats : 1 ≤ seats) :
    (getRide s rid = none →
      requestBooking s newId rid pid seats = (.error .notFound, s))
    ∧ (getRide s rid = some r → r.seatsAvailable < seats →
      requestBooking s newId rid pid seats = (.error .insufficientSeats, s))
    ∧ (getRide s rid = some r → r.seatsAvailable < seats →
      isOkResult (requestBooking s newId rid pid seats).1 = false) := by
  have h1 : ¬ seats < 1 := not_lt.mpr hseats
  refine ⟨?_, ?_, ?_⟩
  · intro hr
    simp only [requestBooking, if_neg h1, hr]
  · intro hr h2
    simp only [requestBooking, if_neg h1, hr, if_pos h2]
  · intro hr h2
    simp only [requestBooking, if_neg h1, hr, if_pos h2, isOkResult]

/-- Witness: C2 at Scenario B's data — one seat left, two requested,
request refused with `insufficientSeats` and the state unchanged. -/
theorem claim2_requestBooking_failure_modes_witness :
    (1:Int) ≤ 2 ∧
    ((getRide exStateScarce 1 = none →
      requestBooking exStateScarce 100 1 20 2 = (.error .notFound, exStateScarce))
    ∧ (getRide exStateScarce 1 =
        some { id := 1, driverId := 10, seatsTotal := 3, seatsAvailable := 1,
               costPerSeat := 5, isActive := true } →
      (1:Int) < 2 →
      requestBooking exStateScarce 100 1 20 2 =
        (.error .insufficientSeats, exStateScarce))
    ∧ (getRide exStateScarce 1 =
        some { id := 1, driverId := 10, seatsTotal := 3, seatsAvailable := 1,
               costPerSeat := 5, isActive := true } →
      (1:Int) < 2 →
      isOkResult (requestBooking exStateScarce 100 1 20 2).1 = false)) :=
  ⟨by decide,
    claim2_requestBooking_failure_modes exStateScarce 100 1 20 2
      { id := 1, driverId := 10, seatsTotal := 3, seatsAvailable := 1,
        costPerSeat := 5, isActive := true } (by decide)⟩

/-- C5: a successful `requestBooking` returns a new `pending` booking
carrying exactly the requested seats, appends it to the booking
collection, and decreases the target ride's `seatsAvailable` by exactly
the requested seats. -/
theorem claim5_requestBooking_success (s : State) (newId rid pid : Nat)
    (seats : Int) (r : Ride) (hr : getRide s rid = some r)
    (h1 : 1 ≤ seats) (h2 : seats ≤ r.seatsAvailable) :
    (requestBooking s newId rid pid seats).1 =
      .ok { id := newId, rideId := rid, passengerId := pid,
            seatsBooked := seats, status := .pending }
    ∧ (requestBooking s newId rid pid seats).2.bookings =
      s.bookings ++
        [{ id := newId, rideId := rid, passengerId := pid,
           seatsBooked := seats, status := .pending }]
    ∧ getRide (requestBooking s newId rid pid seats).2 rid =
      some { r with seatsAvailable := r.seatsAvailable - seats } := by
  have hn1 : ¬ seats < 1 := not_lt.mpr h1
  have hn2 : ¬ r.seatsAvailable < seats := not_lt.mpr h2
  refine ⟨?_, ?_, ?_⟩
  · simp only [requestBooking, if_neg hn1, hr, if_neg hn2]
  · simp only [requestBooking, if_neg hn1, hr, if_neg hn2]
    rfl
  · simp only [requestBooking, if_neg hn1, hr, if_neg hn2]
    rw [getRide_setRideSeats]
    show (getRide s rid).map (updSeats rid (r.seatsAvailable - seats)) = _
    rw [hr]
    show some (updSeats rid (r.seatsAvailable - seats) r) = _
    unfold updSeats
    rw [if_pos (getRide_mem hr).2]

/-- Witness: C5 at Scenario A's first step — booking 2 of 3 seats
creates the pending booking and leaves 1 seat available. -/
theorem claim5_requestBooking_success_witness :
    getRide exStateThree 1 = some exRideThree ∧ (1:Int) ≤ 2 ∧
    (2:Int) ≤ exRideThree.seatsAvailable ∧
    ((requestBooking exStateThree 100 1 20 2).1 =
      .ok { id := 100, rideId := 1, passengerId := 20,
            seatsBooked := 2, status := .pending }
    ∧ (requestBooking exStateThree 100 1 20 2).2.bookings =
      exStateThree.bookings ++
        [{ id := 100, rideId := 1, passengerId := 20,
           seatsBooked := 2, status := .pending }]
    ∧ getRide (requestBooking exStateThree 100 1 20 2).2 1 =
      some { exRideThree with seatsAvailable := exRideThree.seatsAvailable - 2 }) :=
  ⟨by decide, by decide, by decide,
    claim5_requestBooking_success exStateThree 100 1 20 2 exRideThree
      (by decide) (by decide) (by decide)⟩

/-- C8 (counterexample): there is no clamp. Starting from a conserved
one-seat ride, booking the seat, cancelling (refund), re-setting the
cancelled booking to `pending` (the code accepts this with no seat
effect), and cancelling again (a second refund) drives `seatsAvailable`
to 2 on a ride whose `seatsTotal` is 1. -/
theorem claim8_clamp_counterexample :
    seatsNonneg exStateOne ∧ conserved exStateOne ∧
    (getRide (applyOps exStateOne opsOverTotal) 1).map
      (fun r => (r.seatsAvailable, r.seatsTotal)) = some (2, 1) ∧
    ¬ (∀ r ∈ (applyOps exStateOne opsOverTotal).rides,
        r.seatsAvailable ≤ r.seatsTotal) := by
  decide

/-- C8 (amended): the lower bound does hold — under every sequence of
booking operations (even ones performing invalid transitions),
`seatsAvailable` stays non-negative on every ride and `seatsBooked`
stays non-negative on every booking; only the upper bound
`seatsAvailable ≤ seatsTotal` can be violated. -/
theorem claim8_seats_never_negative (s : State) (ops : List BookOp)
    (h : seatsNonneg s) : seatsNonneg (applyOps s ops) :=
  seatsNonneg_applyOps s ops h

/-- Witness: the amended C8 theorem applied to the over-total sequence
itself: counters stay non-negative even where the upper bound breaks. -/
theorem claim8_seats_never_negative_witness :
    seatsNonneg exStateOne ∧ seatsNonneg (applyOps exStateOne opsOverTotal) :=
  ⟨by decide, claim8_seats_never_negative exStateOne opsOverTotal (by decide)⟩

end Carpool

namespace Carpool

/-- C3 (counterexample): the code performs no transition validation. On
an accepted booking, updating the status to `rejected` does not fail: it
returns the booking with the new status, and the stored status changes
from `accepted` to `rejected` — contradicting the claim that such a call
fails with `InvalidTransition` and leaves the booking unchanged. -/
theorem claim3_invalid_transition_counterexample :
    (getBooking exStateAccepted 5).map (fun b => b.status) = some .accepted ∧
    (updateBooking exStateAccepted 5 .rejected).1 =
      some { id := 5, rideId := 1, passengerId := 20, seatsBooked := 2,
             status := .rejected } ∧
    (getBooking (updateBooking exStateAccepted 5 .rejected).2 5).map
      (fun b => b.status) = some .rejected := by
  decide

/-- C3 (amended): `updateBooking` never rejects a status change. For an
accepted booking set to `rejected`, and for a booking in a terminal
state (`rejected` or `cancelled`) set to any status, the call succeeds,
writes the new status, and performs no seat effect (the ride collection
is unchanged). -/
theorem claim3_no_transition_validation (s : State) (bid : Nat) (b : Booking)
    (st : BookingStatus) (hb : getBooking s bid = some b)
    (hcase : (b.status = .accepted ∧ st = .rejected) ∨
      b.status = .rejected ∨ b.status = .cancelled) :
    (updateBooking s bid st).1 = some { b with status := st }
    ∧ (updateBooking s bid st).2.rides = s.rides := by
  have h1 : ¬ (st = BookingStatus.rejected ∧ b.status = .pending) := by
    intro hcon
    rcases hcase with ⟨ha, _⟩ | hterm | hterm
    · rw [ha] at hcon; cases hcon.2
    · rw [hterm] at hcon; cases hcon.2
    · rw [hterm] at hcon; cases hcon.2
  have h2 : ¬ (st = BookingStatus.cancelled ∧
      (b.status = .accepted ∨ b.status = .pending)) := by
    intro hcon
    rcases hcase with ⟨ha, hst⟩ | hterm | hterm
    · rw [hst] at hcon; cases hcon.1
    · rw [hterm] at hcon
      rcases hcon.2 with h | h <;> cases h
    · rw [hterm] at hcon
      rcases hcon.2 with h | h <;> cases h
  simp only [updateBooking, hb]
  split
  · exact ⟨rfl, rfl⟩
  · rw [if_neg h1, if_neg h2]
    exact ⟨rfl, rfl⟩

/-- Witness: the amended C3 theorem at the accepted-booking state, with
the transition accepted → rejected. -/
theorem claim3_no_transition_validation_witness :
    getBooking exStateAccepted 5 =
      some { id := 5, rideId := 1, passengerId := 20, seatsBooked := 2,
             status := .accepted } ∧
    ((updateBooking exStateAccepted 5 .rejected).1 =
      some { id := 5, rideId := 1, passengerId := 20, seatsBooked := 2,
             status := .rejected }
    ∧ (updateBooking exStateAccepted 5 .rejected).2.rides =
      exStateAccepted.rides) :=
  ⟨by decide,
    claim3_no_transition_validation exStateAccepted 5
      { id := 5, rideId := 1, passengerId := 20, seatsBooked := 2,
        status := .accepted } .rejected (by decide) (Or.inl ⟨rfl, rfl⟩)⟩

/-- C4: the three refund transitions of the table each add exactly the
booking's `seatsBooked` back to the ride's counter: pending → rejected,
pending → cancelled, and accepted → cancelled all leave the booking's
ride with `seatsAvailable + seatsBooked`, applied exactly once. -/
theorem claim4_refund_transitions (s : State) (bid : Nat) (b : Booking)
    (r : Ride) (st : BookingStatus)
    (hb : getBooking s bid = some b)
    (hr : getRide s b.rideId = some r)
    (hcase : (b.status = .pending ∧ (st = .rejected ∨ st = .cancelled))
      ∨ (b.status = .accepted ∧ st = .cancelled)) :
    getRide (updateBooking s bid st).2 b.rideId =
      some { r with seatsAvailable := r.seatsAvailable + b.seatsBooked } := by
  have hfire : (st = BookingStatus.rejected ∧ b.status = .pending) ∨
      (¬ (st = BookingStatus.rejected ∧ b.status = .pending) ∧
        st = BookingStatus.cancelled ∧
        (b.status = .accepted ∨ b.status = .pending)) := by
    rcases hcase with ⟨hp, hst | hst⟩ | ⟨ha, hst⟩
    · exact Or.inl ⟨hst, hp⟩
    · refine Or.inr ⟨?_, hst, Or.inr hp⟩
      intro hcon
      rw [hst] at hcon
      cases hcon.1
    · refine Or.inr ⟨?_, hst, Or.inl ha⟩
      intro hcon
      rw [hst] at hcon
      cases hcon.1
  simp only [updateBooking, hb]
  split
  · next hnone =>
    have hcon : getRide s b.rideId = none := hnone
    rw [hr] at hcon
    cases hcon
  · next ride hsome =>
    have hs2 : getRide s b.rideId = some ride := hsome
    have hrr : some ride = some r := hs2.symm.trans hr
    have hrideeq : ride = r := by injection hrr
    subst hrideeq
    have hfinish : getRide (setRideSeats (setBookingStatus s bid st) ride.id
        (ride.seatsAvailable + b.seatsBooked)) b.rideId =
        some { ride with seatsAvailable := ride.seatsAvailable + b.seatsBooked } := by
      rw [getRide_setRideSeats]
      show (getRide s b.rideId).map
        (updSeats ride.id (ride.seatsAvailable + b.seatsBooked)) = _
      rw [hr]
      show some (updSeats ride.id (ride.seatsAvailable + b.seatsBooked) ride) = _
      unfold updSeats
      rw [if_pos rfl]
    rcases hfire with hf | ⟨hnf, hf2⟩
    · rw [if_pos hf]
      exact hfinish
    · rw [if_neg hnf, if_pos hf2]
      exact hfinish

/-- Witness: C4 at a pending one-seat booking rejected on a ride with 2
of 3 seats left — the counter returns to 3. -/
theorem claim4_refund_transitions_witness :
    getBooking exStatePending 5 =
      some { id := 5, rideId := 1, passengerId := 20, seatsBooked := 1,
             status := .pending } ∧
    getRide exStatePending 1 =
      some { id := 1, driverId := 10, seatsTotal := 3, seatsAvailable := 2,
             costPerSeat := 5, isActive := true } ∧
    getRide (updateBooking exStatePending 5 .rejected).2 1 =
      some { id := 1, driverId := 10, seatsTotal := 3, seatsAvailable := 3,
             costPerSeat := 5, isActive := true } := by
  refine ⟨by decide, by decide, ?_⟩
  have h := claim4_refund_transitions exStatePending 5
    { id := 5, rideId := 1, passengerId := 20, seatsBooked := 1,
      status := .pending }
    { id := 1, driverId := 10, seatsTotal := 3, seatsAvailable := 2,
      costPerSeat := 5, isActive := true }
    .rejected (by decide) (by decide) (Or.inl ⟨rfl, Or.inl rfl⟩)
  exact h

/-- C6: accepting a pending booking changes only the booking's status:
the call returns the booking with status `accepted`, the stored booking
has status `accepted`, and the ride collection is completely unchanged —
no second seat deduction. -/
theorem claim6_accept_preserves_ride (s : State) (bid : Nat) (b : Booking)
    (hb : getBooking s bid = some b) (hst : b.status = .pending) :
    (updateBooking s bid .accepted).1 = some { b with status := .accepted }
    ∧ (updateBooking s bid .accepted).2.rides = s.rides
    ∧ getBooking (updateBooking s bid .accepted).2 bid =
      some { b with status := .accepted } := by
  have h1 : ¬ (BookingStatus.accepted = BookingStatus.rejected ∧
      b.status = .pending) := by
    intro hcon; cases hcon.1
  have h2 : ¬ (BookingStatus.accepted = BookingStatus.cancelled ∧
      (b.status = .accepted ∨ b.status = .pending)) := by
    intro hcon; cases hcon.1
  have hbook : getBooking (setBookingStatus s bid .accepted) bid =
      some { b with status := BookingStatus.accepted } := by
    rw [getBooking_setBookingStatus, hb]
    show some (updStatus bid .accepted b) = _
    unfold updStatus
    rw [if_pos (getBooking_mem hb).2]
  simp only [updateBooking, hb]
  split
  · exact ⟨rfl, rfl, hbook⟩
  · rw [if_neg h1, if_neg h2]
    exact ⟨rfl, rfl, hbook⟩

/-- Witness: C6 at a pending one-seat booking — acceptance leaves the
ride list unchanged. -/
theorem claim6_accept_preserves_ride_witness :
    getBooking exStatePending 5 =
      some { id := 5, rideId := 1, passengerId := 20, seatsBooked := 1,
             status := .pending } ∧
    ((updateBooking exStatePending 5 .accepted).1 =
      some { id := 5, rideId := 1, passengerId := 20, seatsBooked := 1,
             status := .accepted }
    ∧ (updateBooking exStatePending 5 .accepted).2.rides = exStatePending.rides
    ∧ getBooking (updateBooking exStatePending 5 .accepted).2 5 =
      some { id := 5, rideId := 1, passengerId := 20, seatsBooked := 1,
             status := .accepted }) :=
  ⟨by decide,
    claim6_accept_preserves_ride exStatePending 5
      { id := 5, rideId := 1, passengerId := 20, seatsBooked := 1,
        status := .pending } (by decide) rfl⟩

end Carpool

namespace Carpool

/-- C7 (counterexample): on Scenario D's data (ride full, two pending
bookings of 1 and 2 seats), `deleteRide` reports success and marks both
bookings rejected, but the ride is hard-deleted — afterwards no ride with
that id exists at all, so no ride ends with `isActive = false` and
`seatsAvailable = 3`; no seats were refunded anywhere. -/
theorem claim7_deleteRide_counterexample :
    (deleteRide exStateScenD 1).1 = true ∧
    getRide (deleteRide exStateScenD 1).2 1 = none ∧
    (deleteRide exStateScenD 1).2.rides = [] ∧
    (getBooking (deleteRide exStateScenD 1).2 5).map (fun b => b.status) =
      some .rejected ∧
    (getBooking (deleteRide exStateScenD 1).2 6).map (fun b => b.status) =
      some .rejected := by
  decide

/-- C7 (amended): when the ride exists, `deleteRide` returns true,
removes the ride from storage entirely (it is not soft-deactivated, and
afterwards has no `seatsAvailable` at all), rewrites every pending
booking of that ride to `rejected` with no other booking change and no
seat refund, and keeps exactly the rides with a different id. -/
theorem claim7_deleteRide_behavior (s : State) (rid : Nat) (r : Ride)
    (bid : Nat) (r' : Ride) (hr : getRide s rid = some r) :
    (deleteRide s rid).1 = true
    ∧ getRide (deleteRide s rid).2 rid = none
    ∧ getBooking (deleteRide s rid).2 bid = (getBooking s bid).map
        (fun b : Booking => if b.rideId = rid ∧ b.status = .pending then
          { b with status := BookingStatus.rejected } else b)
    ∧ (r' ∈ (deleteRide s rid).2.rides ↔ r' ∈ s.rides ∧ r'.id ≠ rid) := by
  simp only [deleteRide]
  split
  · next heq =>
    have hcon : getRide s rid = none := heq
    rw [hr] at hcon
    cases hcon
  · next ride heq =>
    refine ⟨rfl, ?_, ?_, ?_⟩
    · show (s.rides.filter (fun r0 : Ride => r0.id != rid)).find?
        (fun r0 : Ride => r0.id == rid) = none
      apply List.find?_eq_none.mpr
      intro x hx
      have hne : x.id ≠ rid := by
        simpa using (List.mem_filter.mp hx).2
      simpa using hne
    · exact find?_map_of_key_eq
        (fun b : Booking => if b.rideId = rid ∧ b.status = .pending then
          { b with status := BookingStatus.rejected } else b)
        (fun b : Booking => b.id) (rejectPending_preserves_id rid)
        s.bookings bid
    · show r' ∈ s.rides.filter (fun r0 : Ride => r0.id != rid) ↔
        r' ∈ s.rides ∧ r'.id ≠ rid
      rw [List.mem_filter]
      simp [bne_iff_ne]

/-- Witness: the amended C7 theorem on Scenario D's data, checking
booking 5 and the (now removed) ride. -/
theorem claim7_deleteRide_behavior_witness :
    getRide exStateScenD 1 =
      some { id := 1, driverId := 10, seatsTotal := 3, seatsAvailable := 0,
             costPerSeat := 5, isActive := true } ∧
    ((deleteRide exStateScenD 1).1 = true
    ∧ getRide (deleteRide exStateScenD 1).2 1 = none
    ∧ getBooking (deleteRide exStateScenD 1).2 5 =
        (getBooking exStateScenD 5).map
        (fun b : Booking => if b.rideId = 1 ∧ b.status = .pending then
          { b with status := BookingStatus.rejected } else b)
    ∧ ({ id := 1, driverId := 10, seatsTotal := 3, seatsAvailable := 0,
         costPerSeat := 5, isActive := true } ∈ (deleteRide exStateScenD 1).2.rides ↔
        { id := 1, driverId := 10, seatsTotal := 3, seatsAvailable := 0,
          costPerSeat := 5, isActive := true } ∈ exStateScenD.rides ∧
        ({ id := 1, driverId := 10, seatsTotal := 3, seatsAvailable := 0,
           costPerSeat := 5, isActive := true } : Ride).id ≠ 1)) :=
  ⟨by decide,
    claim7_deleteRide_behavior exStateScenD 1
      { id := 1, driverId := 10, seatsTotal := 3, seatsAvailable := 0,
        costPerSeat := 5, isActive := true } 5
      { id := 1, driverId := 10, seatsTotal := 3, seatsAvailable := 0,
        costPerSeat := 5, isActive := true } (by decide)⟩

/-- C9: the read projections are pure. Both list operations return the
input state as their state component (so rides, bookings, users and
vehicles are all unchanged), and repeating either call on that state
yields the identical result. -/
theorem claim9_read_projections_pure (s : State) (rid pid : Nat) :
    (getBookingsByRide s rid).2 = s
    ∧ (getBookingsByPassenger s pid).2 = s
    ∧ getBookingsByRide (getBookingsByRide s rid).2 rid = getBookingsByRide s rid
    ∧ getBookingsByPassenger (getBookingsByPassenger s pid).2 pid =
      getBookingsByPassenger s pid :=
  ⟨rfl, rfl, rfl, rfl⟩

/-- C10: repeating a cancellation or rejection cannot refund twice. For
a booking already in `cancelled` or `rejected`, a further update to
`cancelled` or `rejected` writes the new status but leaves every ride
untouched: the refund branches require the prior status to be pending
(or accepted for cancellation), so no second refund can fire. -/
theorem claim10_no_double_refund (s : State) (bid : Nat) (b : Booking)
    (st : BookingStatus) (hb : getBooking s bid = some b)
    (hterm : b.status = .cancelled ∨ b.status = .rejected)
    (hst : st = .cancelled ∨ st = .rejected) :
    (updateBooking s bid st).1 = some { b with status := st }
    ∧ (updateBooking s bid st).2.rides = s.rides
    ∧ getBooking (updateBooking s bid st).2 bid =
      some { b with status := st } := by
  have h1 : ¬ (st = BookingStatus.rejected ∧ b.status = .pending) := by
    intro hcon
    rcases hterm with h | h <;> rw [h] at hcon <;> cases hcon.2
  have h2 : ¬ (st = BookingStatus.cancelled ∧
      (b.status = .accepted ∨ b.status = .pending)) := by
    intro hcon
    rcases hterm with h | h <;> rw [h] at hcon <;>
      rcases hcon.2 with h' | h' <;> cases h'
  have hbook : getBooking (setBookingStatus s bid st) bid =
      some { b with status := st } := by
    rw [getBooking_setBookingStatus, hb]
    show some (updStatus bid st b) = _
    unfold updStatus
    rw [if_pos (getBooking_mem hb).2]
  simp only [updateBooking, hb]
  split
  · exact ⟨rfl, rfl, hbook⟩
  · rw [if_neg h1, if_neg h2]
    exact ⟨rfl, rfl, hbook⟩

/-- Witness: C10 at a cancelled booking updated to `cancelled` again —
the status write happens, the rides are untouched. -/
theorem claim10_no_double_refund_witness :
    getBooking exStateCancelled 5 =
      some { id := 5, rideId := 1, passengerId := 20, seatsBooked := 2,
             status := .cancelled } ∧
    ((updateBooking exStateCancelled 5 .cancelled).1 =
      some { id := 5, rideId := 1, passengerId := 20, seatsBooked := 2,
             status := .cancelled }
    ∧ (updateBooking exStateCancelled 5 .cancelled).2.rides =
      exStateCancelled.rides
    ∧ getBooking (updateBooking exStateCancelled 5 .cancelled).2 5 =
      some { id := 5, rideId := 1, passengerId := 20, seatsBooked := 2,
             status := .cancelled }) :=
  ⟨by decide,
    claim10_no_double_refund exStateCancelled 5
      { id := 5, rideId := 1, passengerId := 20, seatsBooked := 2,
        status := .cancelled } .cancelled (by decide) (Or.inl rfl) (Or.inl rfl)⟩

end Carpool
